import Mathlib

/-
Verification of the AutoModifyingAI dynamic-capability runtime
(src/auto_modifying_ai.py) against its natural-language specification.

Shallow embedding notes:
* A Python instance of AutoModifyingAI is modelled by its attribute
  dictionary (an insertion-ordered association list from attribute names to
  Python values), exactly the instance __dict__ that __init__ populates and
  that setattr/getattr/hasattr operate on.
* Python values that the runtime manipulates are modelled by PyVal:
  strings, ints, bools, None, lists, string-keyed dicts, and callables
  (functions/bound methods, identified by an opaque id).
* A Python source text passed to add_method / modify_method / execute_code
  is modelled by its semantics (structure Code): exec(text, namespace) with
  namespace initially binding the extra names supplied by the caller plus
  the implicit binding of the instance itself, run against the current
  instance state, either faults (Except.error, carrying the exception
  message) or terminates normally returning the final namespace; in both
  cases it returns the (possibly mutated) instance state, since the
  executed text can assign to attributes of the instance through the
  namespace entry for the instance.
* Timestamps produced by the private timestamp helper are nondeterministic
  wall-clock reads; they are passed in as an explicit argument.
* Console printing on error paths has no effect on instance state and is
  not modelled.
-/

namespace AMAI

mutual
/-- Python runtime values as manipulated by the AutoModifyingAI class. -/
inductive PyVal where
  | vstr : String → PyVal
  | vint : Int → PyVal
  | vbool : Bool → PyVal
  | vnone : PyVal
  | vlist : PyList → PyVal
  | vdict : PyDict → PyVal
  | vmethod : Nat → PyVal
  deriving DecidableEq

/-- Python list of values. -/
inductive PyList where
  | nil : PyList
  | cons : PyVal → PyList → PyList
  deriving DecidableEq

/-- Python string-keyed dict of values (insertion ordered). -/
inductive PyDict where
  | dnil : PyDict
  | dcons : String → PyVal → PyDict → PyDict
  deriving DecidableEq
end

def PyList.ofList : List PyVal → PyList
  | [] => .nil
  | x :: xs => .cons x (PyList.ofList xs)

def PyList.toList : PyList → List PyVal
  | .nil => []
  | .cons x xs => x :: xs.toList

/-- Python list.append, which adds one element at the end. -/
def PyList.push : PyList → PyVal → PyList
  | .nil, v => .cons v .nil
  | .cons x xs, v => .cons x (xs.push v)

def PyDict.ofList : List (String × PyVal) → PyDict
  | [] => .dnil
  | (k, v) :: xs => .dcons k v (PyDict.ofList xs)

def PyDict.toList : PyDict → List (String × PyVal)
  | .dnil => []
  | .dcons k v xs => (k, v) :: xs.toList

/-- Python dict lookup (keys are unique, first match is the binding). -/
def PyDict.lookup : PyDict → String → Option PyVal
  | .dnil, _ => none
  | .dcons k v rest, key => if k = key then some v else rest.lookup key

/-- Lookup in the instance attribute dictionary (getattr without fallback). -/
def lookupAttr : List (String × PyVal) → String → Option PyVal
  | [], _ => none
  | (k1, v) :: rest, k => if k1 = k then some v else lookupAttr rest k

/-- Python setattr on the instance dictionary: overwrite in place when the
key is present, otherwise append the new binding at the end. -/
def setAttrList : List (String × PyVal) → String → PyVal → List (String × PyVal)
  | [], k, v => [(k, v)]
  | (k1, v1) :: rest, k, v =>
    if k1 = k then (k, v) :: rest else (k1, v1) :: setAttrList rest k v

/-- State of one AutoModifyingAI instance: its attribute dictionary. -/
structure AIState where
  attrs : List (String × PyVal)
  deriving DecidableEq

/-- Names defined on the AutoModifyingAI class itself; hasattr finds these
even when they are not in the instance dictionary. -/
def classAttrNames : List String :=
  ["add_method", "modify_method", "execute_code", "learn_from_feedback",
   "get_performance_summary", "_get_timestamp", "__repr__", "__str__", "__init__"]

/-- Python hasattr on an AutoModifyingAI instance: instance attribute or
class attribute. -/
def hasattr (s : AIState) (n : String) : Bool :=
  (lookupAttr s.attrs n).isSome || classAttrNames.contains n

/-- The constructor of AutoModifyingAI: populates the five instance
attributes in order. -/
def initState (name : String) : AIState :=
  ⟨[("name", .vstr name), ("version", .vstr "1.0.0"),
    ("learning_history", .vlist .nil), ("modifications_count", .vint 0),
    ("performance_metrics", .vdict .dnil)]⟩

/-- Semantics of a Python source text run by exec inside this class: given
the current instance state and the extra namespace bindings supplied by the
caller (beyond the implicit binding of the instance itself), it yields the
possibly mutated instance state together with either a fault (exception
message) or the final namespace after execution. -/
structure Code where
  run : AIState → (String → Option PyVal) → AIState × Except String (String → Option PyVal)

/-- Truthiness of a Python value (bool(v)). -/
def pyTruthy : PyVal → Bool
  | .vstr s => !s.isEmpty
  | .vint k => decide (k ≠ 0)
  | .vbool b => b
  | .vnone => false
  | .vlist .nil => false
  | .vlist _ => true
  | .vdict .dnil => false
  | .vdict _ => true
  | .vmethod _ => true

/-- Python iteration over a value: lists yield their items, strings their
characters, dicts their keys; other values raise TypeError. -/
def pyIter : PyVal → Option (List PyVal)
  | .vstr s => some (s.toList.map fun c => .vstr (String.mk [c]))
  | .vlist l => some l.toList
  | .vdict d => some (d.toList.map fun p => .vstr p.1)
  | _ => none

/-- Python item.get(key, default): only dicts have a get method, every
other receiver raises AttributeError. -/
def pyGet (item : PyVal) (key : String) (dflt : PyVal) : Except String PyVal :=
  match item with
  | .vdict d => .ok ((d.lookup key).getD dflt)
  | _ => .error "AttributeError"

/-- Translation of AutoModifyingAI.add_method (src/auto_modifying_ai.py,
lines 38-66). The whole body sits in a try/except, so a fault raised by the
executed text is caught and the call returns False with whatever mutations
the text performed before faulting.  After exec, the namespace entry under
the requested name is fetched; if it is callable it is bound and stored via
setattr and the modification counter is incremented.  The increment itself
can fault (when the counter attribute no longer holds a number, e.g. after
the setattr just overwrote it); that fault is also caught, returning False
with the setattr already applied. In Python a bool counter also supports
the increment (bool is an int subtype), producing an int. -/
def add_method (s : AIState) (method_name : String) (method_code : Code) :
    AIState × Bool :=
  match method_code.run s (fun _ => none) with
  | (s1, .error _) => (s1, false)
  | (s1, .ok ns) =>
    match ns method_name with
    | some (.vmethod d) =>
      let s2 : AIState := ⟨setAttrList s1.attrs method_name (.vmethod d)⟩
      match lookupAttr s2.attrs "modifications_count" with
      | some (.vint k) =>
        ((⟨setAttrList s2.attrs "modifications_count" (.vint (k + 1))⟩ : AIState), true)
      | some (.vbool b) =>
        ((⟨setAttrList s2.attrs "modifications_count"
            (.vint ((if b then 1 else 0) + 1))⟩ : AIState), true)
      | _ => (s2, false)
    | _ => (s1, false)

/-- The learning-history entry appended by modify_method. -/
def modifyEntry (method_name now : String) : PyVal :=
  .vdict (PyDict.ofList
    [("action", .vstr "modify"), ("method", .vstr method_name),
     ("timestamp", .vstr now)])

/-- Translation of AutoModifyingAI.modify_method (lines 68-99).  The
existence check is a plain hasattr, satisfied by any attribute, callable or
not.  The getattr that saves the old method is dead code (never used) and
cannot fault once hasattr succeeded, so it is not modelled separately.  On
a successful inner add_method, a modify entry is appended to
learning_history; if that attribute no longer holds a list the append
raises AttributeError, which the surrounding try/except turns into a False
return (with the inner add_method mutations already applied). -/
def modify_method (s : AIState) (method_name : String) (new_code : Code)
    (now : String) : AIState × Bool :=
  if hasattr s method_name then
    match add_method s method_name new_code with
    | (s1, true) =>
      match lookupAttr s1.attrs "learning_history" with
      | some (.vlist l) =>
        ((⟨setAttrList s1.attrs "learning_history"
            (.vlist (l.push (modifyEntry method_name now)))⟩ : AIState), true)
      | _ => (s1, false)
    | (s1, false) => (s1, false)
  else (s, false)

/-- Namespace bindings supplied to execute_code: the optional context dict.
An empty or absent context contributes no bindings (the source skips the
namespace update when the context is falsy, which has the same effect). -/
def ctxFun (context : Option (List (String × PyVal))) : String → Option PyVal :=
  fun n =>
    match context with
    | some m => lookupAttr m n
    | none => none

/-- Translation of AutoModifyingAI.execute_code (lines 101-121).  The body
is wrapped in a try/except: a fault raised by the executed text is caught
and the call returns None; a normal run returns the namespace binding of
the name result, or None when absent.  The Except layer in the return type
records whether a fault escapes to the caller; by construction of the
catch-all handler it never does. -/
def execute_code (s : AIState) (code : Code)
    (context : Option (List (String × PyVal))) : AIState × Except String PyVal :=
  match code.run s (ctxFun context) with
  | (s1, .error _) => (s1, .ok .vnone)
  | (s1, .ok ns) => (s1, .ok ((ns "result").getD .vnone))

/-- The learning-history entry appended by learn_from_feedback. -/
def feedbackEntry (feedback : String) (success : Bool) (now : String) : PyVal :=
  .vdict (PyDict.ofList
    [("feedback", .vstr feedback), ("success", .vbool success),
     ("timestamp", .vstr now)])

/-- Translation of AutoModifyingAI.learn_from_feedback (lines 123-135).
There is no try/except here: if learning_history does not hold a list the
append raises AttributeError, which propagates to the caller (recorded in
the Except layer of the result). -/
def learn_from_feedback (s : AIState) (feedback : String) (success : Bool)
    (now : String) : AIState × Except String Unit :=
  match lookupAttr s.attrs "learning_history" with
  | some (.vlist l) =>
    ((⟨setAttrList s.attrs "learning_history"
        (.vlist (l.push (feedbackEntry feedback success now)))⟩ : AIState), .ok ())
  | _ => (s, .error "AttributeError")

/-- Attribute read that raises AttributeError when the attribute is absent
from the instance dictionary (as self.x does inside get_performance_summary
for the data attributes, which live only on the instance). -/
def getattrE (s : AIState) (n : String) : Except String PyVal :=
  match lookupAttr s.attrs n with
  | some v => .ok v
  | none => .error "AttributeError"

/-- The generator sum in get_performance_summary: counts the history items
whose success key (defaulting to False) is truthy; faults when an item is
not a dict. -/
def countSuccessful : List PyVal → Except String Nat
  | [] => .ok 0
  | item :: rest => do
    let v ← pyGet item "success" (.vbool false)
    let n ← countSuccessful rest
    pure (if pyTruthy v then n + 1 else n)

/-- The dictionary returned by get_performance_summary, as a record.  The
success rate is a rational (Python float division of two small ints is
exact here); the zero-history branch of the source returns the int 0,
numerically equal to 0.0. -/
structure Summary where
  name : PyVal
  version : PyVal
  modifications : PyVal
  learning_events : Nat
  success_rate : ℚ
  performance_metrics : PyVal
  deriving DecidableEq

/-- Translation of AutoModifyingAI.get_performance_summary (lines 137-157).
Read-only: the state is returned unchanged.  Evaluation follows source
order: the success count over learning_history first (faulting when the
attribute is missing, not iterable, or an item lacks a get method), then
the length, then the attribute reads for the result dictionary.  The
division is guarded by the length test, so the zero-entry case yields 0
rather than a fault. -/
def get_performance_summary (s : AIState) : AIState × Except String Summary :=
  (s, do
    let hist ← getattrE s "learning_history"
    let items ← match pyIter hist with
      | some l => Except.ok l
      | none => Except.error "TypeError"
    let successful_feedback ← countSuccessful items
    let total_feedback := items.length
    let nm ← getattrE s "name"
    let ver ← getattrE s "version"
    let mods ← getattrE s "modifications_count"
    let pm ← getattrE s "performance_metrics"
    Except.ok (⟨nm, ver, mods, total_feedback,
      if total_feedback > 0 then (successful_feedback : ℚ) / (total_feedback : ℚ)
      else 0, pm⟩ : Summary))

section SpecModel

/-- Rollback error taxonomy of the specification (section 7). -/
inductive RollbackError where
  | NotFound
  | NoHistory
  deriving DecidableEq

/-- Kind of a modification event in the specification ledger. -/
inductive SpecEventKind where
  | addK
  | modifyK
  | rollbackK
  deriving DecidableEq

/-- A ModificationEvent of the specification data model. -/
structure SpecEvent where
  kind : SpecEventKind
  capName : String
  versionBefore : Nat
  versionAfter : Nat
  deriving DecidableEq

/-- A capability of the specification data model: active implementation
(opaque id), version number, and the ordered history of prior
implementations with their version numbers, most recent first. -/
structure SpecCapability where
  impl : Nat
  version : Nat
  history : List (Nat × Nat)
  deriving DecidableEq

/-- Registry state of the specification data model: capability table plus
the modification ledger. -/
structure SpecRegistry where
  caps : List (String × SpecCapability)
  ledger : List SpecEvent
  deriving DecidableEq

def lookupCap : List (String × SpecCapability) → String → Option SpecCapability
  | [], _ => none
  | (k1, c) :: rest, k => if k1 = k then some c else lookupCap rest k

def updateCap : List (String × SpecCapability) → String → SpecCapability →
    List (String × SpecCapability)
  | [], k, c => [(k, c)]
  | (k1, c1) :: rest, k, c =>
    if k1 = k then (k, c) :: rest else (k1, c1) :: updateCap rest k c

/-- Modelled from the spec: the repository contains no rollback
implementation (modify_method only leaves the comment about storing the old
method for rollback, and the stored value is never used), so this follows
spec sections 4.1 and 8 word for word: rollback fails with NotFound when
the name is absent, with NoHistory when there is no prior implementation to
restore (the capability is at version 1); on success it pops the most
recent history entry, makes it active, decrements the version, and emits a
Rollback ModificationEvent. -/
def rollbackSpec (r : SpecRegistry) (name : String) :
    SpecRegistry × Except RollbackError Nat :=
  match lookupCap r.caps name with
  | none => (r, .error .NotFound)
  | some c =>
    match c.history with
    | [] => (r, .error .NoHistory)
    | (pImpl, _) :: rest =>
      ((⟨updateCap r.caps name ⟨pImpl, c.version - 1, rest⟩,
         r.ledger ++ [⟨.rollbackK, name, c.version, c.version - 1⟩]⟩ : SpecRegistry),
       .ok (c.version - 1))

end SpecModel

section ConcreteCodes

/-- Semantics of the Python text that assigns 99 to the modification
counter of the instance and defines nothing. -/
def selfMutCode : Code :=
  ⟨fun s _ => ((⟨setAttrList s.attrs "modifications_count" (.vint 99)⟩ : AIState),
    .ok (fun _ => none))⟩

/-- Semantics of the Python text pass: no effect, no bindings. -/
def passCode : Code := ⟨fun s _ => (s, .ok (fun _ => none))⟩

/-- Semantics of a Python text that immediately raises an exception. -/
def raiseCode : Code := ⟨fun s _ => (s, .error "Exception: boom")⟩

/-- Semantics of a Python text that raises a ZeroDivisionError. -/
def zeroDivCode : Code := ⟨fun s _ => (s, .error "ZeroDivisionError")⟩

/-- Semantics of a Python text that runs to completion without binding a
result name. -/
def emptyRunCode : Code := ⟨fun s _ => (s, .ok (fun _ => none))⟩

/-- Semantics of the Python text that sets a flag attribute on the instance
and then raises. The mutation survives the fault. -/
def mutThenRaiseCode : Code :=
  ⟨fun s _ => ((⟨setAttrList s.attrs "flag" (.vint 1)⟩ : AIState),
    .error "TypeError: bad")⟩

/-- Semantics of a Python def statement that binds the given name to a
function and touches nothing else. -/
def defCode (n : String) : Code :=
  ⟨fun s _ => (s, .ok (fun m => if m = n then some (.vmethod 0) else none))⟩

end ConcreteCodes

section Predicates

/-- A definition text whose execution never mutates the instance state. -/
def StatePreserving (c : Code) : Prop := ∀ s b, (c.run s b).1 = s

/-- A definition text that runs without fault, leaves the state unchanged,
and binds the given name to a callable. -/
def DefinesCallable (c : Code) (n : String) : Prop :=
  ∀ s b, ∃ d ns, c.run s b = (s, Except.ok ns) ∧ ns n = some (.vmethod d)

end Predicates

section AttrLemmas

theorem lookupAttr_set_self (m : List (String × PyVal)) (k : String) (v : PyVal) :
    lookupAttr (setAttrList m k v) k = some v := by
  induction m with
  | nil => simp [setAttrList, lookupAttr]
  | cons p rest ih =>
    obtain ⟨k1, v1⟩ := p
    by_cases h : k1 = k
    · simp [setAttrList, lookupAttr, h]
    · simp [setAttrList, lookupAttr, h, ih]

theorem lookupAttr_set_ne (m : List (String × PyVal)) (k k' : String) (v : PyVal)
    (h : k' ≠ k) : lookupAttr (setAttrList m k v) k' = lookupAttr m k' := by
  have h' : ¬ k = k' := fun hh => h hh.symm
  induction m with
  | nil => simp [setAttrList, lookupAttr, h']
  | cons p rest ih =>
    obtain ⟨k1, v1⟩ := p
    by_cases h1 : k1 = k
    · subst h1
      simp [setAttrList, lookupAttr, h']
    · simp [setAttrList, lookupAttr, h1, ih]

theorem lookupAttr_set_isSome (m : List (String × PyVal)) (k k' : String)
    (v : PyVal) (h : (lookupAttr m k').isSome) :
    (lookupAttr (setAttrList m k v) k').isSome := by
  by_cases hk : k' = k
  · subst hk; simp [lookupAttr_set_self]
  · rw [lookupAttr_set_ne m k k' v hk]; exact h

end AttrLemmas

section OpLemmas

theorem hasattr_of_lookup (s : AIState) (n : String) (v : PyVal)
    (h : lookupAttr s.attrs n = some v) : hasattr s n = true := by
  simp [hasattr, h]

theorem add_method_raises (s s1 : AIState) (n : String) (c : Code) (e : String)
    (hrun : c.run s (fun _ => none) = (s1, Except.error e)) :
    add_method s n c = (s1, false) := by
  simp [add_method, hrun]

theorem add_method_ok (s : AIState) (n : String) (c : Code) (d : Nat)
    (ns : String → Option PyVal) (k : Int)
    (hrun : c.run s (fun _ => none) = (s, Except.ok ns))
    (hns : ns n = some (.vmethod d))
    (hcount : lookupAttr s.attrs "modifications_count" = some (.vint k))
    (hn : n ≠ "modifications_count") :
    add_method s n c =
      ((⟨setAttrList (setAttrList s.attrs n (.vmethod d)) "modifications_count"
          (.vint (k + 1))⟩ : AIState), true) := by
  have hc2 : lookupAttr (setAttrList s.attrs n (.vmethod d)) "modifications_count"
      = some (.vint k) := by
    rw [lookupAttr_set_ne _ _ _ _ (fun hh => hn hh.symm)]
    exact hcount
  simp [add_method, hrun, hns, hc2]

theorem add_method_cases (s : AIState) (n : String) (c : Code) (k : Int)
    (hpure : StatePreserving c)
    (hcount : lookupAttr s.attrs "modifications_count" = some (.vint k))
    (hn : n ≠ "modifications_count") :
    add_method s n c = (s, false) ∨
    ∃ d, add_method s n c =
      ((⟨setAttrList (setAttrList s.attrs n (.vmethod d)) "modifications_count"
          (.vint (k + 1))⟩ : AIState), true) := by
  rcases hrun : c.run s (fun _ => none) with ⟨s1, r⟩
  have hs1 : s1 = s := by
    have h := hpure s (fun _ => none)
    rw [hrun] at h
    exact h
  subst hs1
  cases r with
  | error e => exact Or.inl (add_method_raises s1 s1 n c e hrun)
  | ok ns =>
    cases hns : ns n with
    | none => exact Or.inl (by simp [add_method, hrun, hns])
    | some v =>
      cases v with
      | vmethod d => exact Or.inr ⟨d, add_method_ok s1 n c d ns k hrun hns hcount hn⟩
      | vstr a => exact Or.inl (by simp [add_method, hrun, hns])
      | vint a => exact Or.inl (by simp [add_method, hrun, hns])
      | vbool a => exact Or.inl (by simp [add_method, hrun, hns])
      | vnone => exact Or.inl (by simp [add_method, hrun, hns])
      | vlist a => exact Or.inl (by simp [add_method, hrun, hns])
      | vdict a => exact Or.inl (by simp [add_method, hrun, hns])

theorem modify_method_hasattr_false (s : AIState) (n now : String) (c : Code)
    (h : hasattr s n = false) : modify_method s n c now = (s, false) := by
  simp [modify_method, h]

theorem add_ok_lookup_other (s : AIState) (n key : String) (d : Nat) (k : Int)
    (h1 : key ≠ n) (h2 : key ≠ "modifications_count") :
    lookupAttr (setAttrList (setAttrList s.attrs n (.vmethod d))
      "modifications_count" (.vint (k + 1))) key = lookupAttr s.attrs key := by
  rw [lookupAttr_set_ne _ _ _ _ h2, lookupAttr_set_ne _ _ _ _ h1]

theorem modify_method_ok (s : AIState) (n now : String) (c : Code) (d : Nat)
    (ns : String → Option PyVal) (k : Int) (l : PyList)
    (hrun : c.run s (fun _ => none) = (s, Except.ok ns))
    (hns : ns n = some (.vmethod d))
    (hcount : lookupAttr s.attrs "modifications_count" = some (.vint k))
    (hn : n ≠ "modifications_count")
    (hl : lookupAttr s.attrs "learning_history" = some (.vlist l))
    (hn2 : n ≠ "learning_history")
    (hhas : hasattr s n = true) :
    modify_method s n c now =
      ((⟨setAttrList (setAttrList (setAttrList s.attrs n (.vmethod d))
          "modifications_count" (.vint (k + 1))) "learning_history"
          (.vlist (l.push (modifyEntry n now)))⟩ : AIState), true) := by
  have hadd := add_method_ok s n c d ns k hrun hns hcount hn
  have hl1 : lookupAttr (setAttrList (setAttrList s.attrs n (.vmethod d))
      "modifications_count" (.vint (k + 1))) "learning_history" = some (.vlist l) := by
    rw [lookupAttr_set_ne _ _ _ _ (by decide),
      lookupAttr_set_ne _ _ _ _ (fun hh => hn2 hh.symm)]
    exact hl
  simp [modify_method, hhas, hadd, hl1]

end OpLemmas

section Claims

/-- C1 (amended): when add_method fails, add_method itself has performed no
mutation: provided the executed definition text left the instance state
unchanged, the target name is not the modification counter itself, and the
counter holds an integer, a failing add_method returns with the registry
state exactly as it was (in particular nothing was appended to the
learning-history ledger).  Without those provisos the original all-or-
nothing claim is false: the executed text can mutate the instance before
the call fails (see the counterexample), and a definition admitted under
the name of the counter attribute makes the subsequent increment fault
after the setattr has already been applied. -/
theorem c1_add_method_failure_preserves_state (s : AIState) (n : String)
    (c : Code) (k : Int)
    (hpure : StatePreserving c)
    (hcount : lookupAttr s.attrs "modifications_count" = some (.vint k))
    (hn : n ≠ "modifications_count")
    (hfail : (add_method s n c).2 = false) :
    (add_method s n c).1 = s := by
  rcases add_method_cases s n c k hpure hcount hn with h | ⟨d, h⟩
  · simp [h]
  · rw [h] at hfail
    simp at hfail

/-- Witness for C1: a pass-through definition that binds nothing makes
add_method fail while leaving the fresh registry state unchanged. -/
theorem c1_add_method_failure_preserves_state_witness :
    (add_method (initState "ai") "helper" passCode).1 = initState "ai" :=
  c1_add_method_failure_preserves_state (initState "ai") "helper" passCode 0
    (fun _ _ => rfl) rfl (by decide) rfl

/-- C1 counterexample: the Python text that assigns 99 to the modification
counter and defines no callable makes add_method return False with the
registry state mutated, refuting the claim that every failing admission
leaves the state unchanged. -/
theorem c1_counterexample :
    (add_method (initState "ai") "helper" selfMutCode).2 = false ∧
    (add_method (initState "ai") "helper" selfMutCode).1 ≠ initState "ai" := by
  exact ⟨by decide, by decide⟩

/-- C2 (amended): with a definition text that does not itself mutate the
instance and a target name distinct from the bookkeeping attributes, the
ledger discipline of the code is: add_method appends nothing to the
learning-history ledger whether it succeeds or fails (the code emits no
Add event at all); a successful modify_method appends exactly one modify
entry, and it does so only after the add_method state transition has
succeeded; a failed modify_method appends nothing. -/
theorem c2_ledger_events (s : AIState) (n : String) (c : Code) (now : String)
    (l : PyList) (k : Int)
    (hpure : StatePreserving c)
    (hl : lookupAttr s.attrs "learning_history" = some (.vlist l))
    (hcount : lookupAttr s.attrs "modifications_count" = some (.vint k))
    (hn1 : n ≠ "learning_history") (hn2 : n ≠ "modifications_count") :
    lookupAttr ((add_method s n c).1).attrs "learning_history" = some (.vlist l) ∧
    ((modify_method s n c now).2 = true →
      lookupAttr ((modify_method s n c now).1).attrs "learning_history" =
        some (.vlist (l.push (modifyEntry n now)))) ∧
    ((modify_method s n c now).2 = false →
      lookupAttr ((modify_method s n c now).1).attrs "learning_history" =
        some (.vlist l)) := by
  have haddHist : lookupAttr ((add_method s n c).1).attrs "learning_history" =
      some (.vlist l) := by
    rcases add_method_cases s n c k hpure hcount hn2 with h | ⟨d, h⟩
    · rw [h]; exact hl
    · rw [h]
      rw [add_ok_lookup_other s n "learning_history" d k
        (fun hh => hn1 hh.symm) (by decide)]
      exact hl
  refine ⟨haddHist, ?_, ?_⟩
  · intro hok
    cases hhas : hasattr s n with
    | false =>
      rw [modify_method_hasattr_false s n now c hhas] at hok
      simp at hok
    | true =>
      rcases add_method_cases s n c k hpure hcount hn2 with h | ⟨d, h⟩
      · unfold modify_method at hok ⊢
        rw [hhas, h] at hok
        simp at hok
      · have hs1 : lookupAttr ((add_method s n c).1).attrs "learning_history" =
            some (.vlist l) := haddHist
        unfold modify_method
        rw [hhas, h]
        rw [h] at hs1
        simp only [hs1]
        simp [lookupAttr_set_self]
  · intro hko
    cases hhas : hasattr s n with
    | false =>
      rw [modify_method_hasattr_false s n now c hhas]
      exact hl
    | true =>
      rcases add_method_cases s n c k hpure hcount hn2 with h | ⟨d, h⟩
      · unfold modify_method
        rw [hhas, h]
        exact hl
      · exfalso
        have hs1 : lookupAttr ((add_method s n c).1).attrs "learning_history" =
            some (.vlist l) := haddHist
        unfold modify_method at hko
        rw [hhas, h] at hko
        rw [h] at hs1
        simp only [hs1] at hko
        simp at hko

/-- Witness for C2: modifying the existing attribute name with a pure
definition leaves the ledger with exactly the one appended modify entry. -/
theorem c2_ledger_events_witness :
    lookupAttr ((modify_method (initState "ai") "name" (defCode "name") "t0").1).attrs
        "learning_history" =
      some (.vlist (PyList.nil.push (modifyEntry "name" "t0"))) :=
  (c2_ledger_events (initState "ai") "name" (defCode "name") "t0" .nil 0
    (fun _ _ => rfl) rfl rfl (by decide) (by decide)).2.1 rfl

/-- C2 counterexample: a successful first admission (add_method returning
True on a fresh name) appends nothing to the learning-history ledger: no
ModificationEvent of kind Add exists anywhere in the code, refuting the
claim that every successful register appends exactly one event of the
matching kind. -/
theorem c2_counterexample :
    (add_method (initState "ai") "greet" (defCode "greet")).2 = true ∧
    lookupAttr ((add_method (initState "ai") "greet" (defCode "greet")).1).attrs
        "learning_history" = some (.vlist .nil) := by
  exact ⟨by decide, by decide⟩

/-- C3: the code conflates a faulted execution with an execution that ran
to completion and produced no result: execute_code returns the very same
outcome, the ordinary value None, for a text that raises and for a text
that completes without binding a result, so the two are not distinct typed
results.  The specification explicitly calls the collapse unintentional
information loss, so this is recorded as a bug of the code rather than of
the claim. -/
theorem c3_fault_vs_empty_conflated :
    execute_code (initState "ai") raiseCode none =
      execute_code (initState "ai") passCode none ∧
    (execute_code (initState "ai") raiseCode none).2 = Except.ok PyVal.vnone := by
  exact ⟨rfl, rfl⟩

/-- Evaluation of get_performance_summary on a state whose bookkeeping
attributes are all present and whose history entries admit the success
count. -/
theorem get_performance_summary_eval (s : AIState) (pl : PyList)
    (vn vv vm vp : PyVal) (cnt : Nat)
    (hl : lookupAttr s.attrs "learning_history" = some (.vlist pl))
    (hcnt : countSuccessful pl.toList = Except.ok cnt)
    (hn : lookupAttr s.attrs "name" = some vn)
    (hv : lookupAttr s.attrs "version" = some vv)
    (hm : lookupAttr s.attrs "modifications_count" = some vm)
    (hp : lookupAttr s.attrs "performance_metrics" = some vp) :
    (get_performance_summary s).2 = Except.ok
      (⟨vn, vv, vm, pl.toList.length,
        if pl.toList.length > 0 then (cnt : ℚ) / (pl.toList.length : ℚ) else 0,
        vp⟩ : Summary) := by
  simp [get_performance_summary, getattrE, hl, hcnt, hn, hv, hm, hp, pyIter,
    Bind.bind, Except.bind]

/-- Iterated admission of the same capability name, starting from a fresh
registry instance. -/
def addIter (a n : String) (c : Code) : Nat → AIState
  | 0 => initState a
  | Nat.succ m => (add_method (addIter a n c m) n c).1

theorem addIter_invariant (a n : String) (c : Code)
    (hc : DefinesCallable c n)
    (h1 : n ≠ "version") (h2 : n ≠ "modifications_count")
    (h3 : n ≠ "learning_history") (N : Nat) :
    lookupAttr (addIter a n c N).attrs "version" = some (.vstr "1.0.0") ∧
    lookupAttr (addIter a n c N).attrs "modifications_count" =
      some (.vint (N : Int)) ∧
    lookupAttr (addIter a n c N).attrs "learning_history" = some (.vlist .nil) ∧
    (lookupAttr (addIter a n c N).attrs "name").isSome = true ∧
    (lookupAttr (addIter a n c N).attrs "performance_metrics").isSome = true ∧
    (add_method (addIter a n c N) n c).2 = true := by
  induction N with
  | zero =>
    refine ⟨rfl, rfl, rfl, rfl, rfl, ?_⟩
    obtain ⟨d, ns, hrun, hns⟩ := hc (initState a) (fun _ => none)
    have h := add_method_ok (initState a) n c d ns 0 hrun hns rfl h2
    show (add_method (initState a) n c).2 = true
    rw [h]
  | succ m ih =>
    obtain ⟨hv, hcnt, hl, hnm, hpm, hok⟩ := ih
    obtain ⟨d, ns, hrun, hns⟩ := hc (addIter a n c m) (fun _ => none)
    have hadd := add_method_ok (addIter a n c m) n c d ns (m : Int) hrun hns hcnt h2
    have hstep : (addIter a n c (m + 1)).attrs =
        setAttrList (setAttrList (addIter a n c m).attrs n (.vmethod d))
          "modifications_count" (.vint ((m : Int) + 1)) := by
      show ((add_method (addIter a n c m) n c).1).attrs = _
      rw [hadd]
    have hcast : ((m : Int) + 1) = ((m + 1 : Nat) : Int) := by push_cast; ring
    have hv2 : lookupAttr (addIter a n c (m + 1)).attrs "version" =
        some (.vstr "1.0.0") := by
      rw [hstep, add_ok_lookup_other (addIter a n c m) n "version" d (m : Int)
        (fun hh => h1 hh.symm) (by decide)]
      exact hv
    have hcnt2 : lookupAttr (addIter a n c (m + 1)).attrs "modifications_count" =
        some (.vint ((m + 1 : Nat) : Int)) := by
      rw [hstep, lookupAttr_set_self, hcast]
    have hl2 : lookupAttr (addIter a n c (m + 1)).attrs "learning_history" =
        some (.vlist .nil) := by
      rw [hstep, add_ok_lookup_other (addIter a n c m) n "learning_history" d
        (m : Int) (fun hh => h3 hh.symm) (by decide)]
      exact hl
    have hnm2 : (lookupAttr (addIter a n c (m + 1)).attrs "name").isSome = true := by
      rw [hstep]
      exact lookupAttr_set_isSome _ _ _ _ (lookupAttr_set_isSome _ _ _ _ hnm)
    have hpm2 : (lookupAttr (addIter a n c (m + 1)).attrs
        "performance_metrics").isSome = true := by
      rw [hstep]
      exact lookupAttr_set_isSome _ _ _ _ (lookupAttr_set_isSome _ _ _ _ hpm)
    obtain ⟨d2, ns2, hrun2, hns2⟩ := hc (addIter a n c (m + 1)) (fun _ => none)
    have hok2 := add_method_ok (addIter a n c (m + 1)) n c d2 ns2
      ((m + 1 : Nat) : Int) hrun2 hns2 hcnt2 h2
    refine ⟨hv2, hcnt2, hl2, hnm2, hpm2, ?_⟩
    rw [hok2]

/-- C4 (amended): the code keeps no per-capability version.  After N
consecutive successful admissions of the same (non-bookkeeping) capability
name from a fresh registry, every call having returned True, the version
reported by get_performance_summary is still the constant instance string
1.0.0 — it does not equal N — while the modification counter reported
equals N. -/
theorem c4_reported_version_constant (a n : String) (c : Code) (N : Nat)
    (hc : DefinesCallable c n)
    (h1 : n ≠ "version") (h2 : n ≠ "modifications_count")
    (h3 : n ≠ "learning_history") :
    (∀ m : Nat, (add_method (addIter a n c m) n c).2 = true) ∧
    Except.map Summary.version ((get_performance_summary (addIter a n c N)).2) =
      Except.ok (.vstr "1.0.0") ∧
    Except.map Summary.modifications
        ((get_performance_summary (addIter a n c N)).2) =
      Except.ok (.vint (N : Int)) := by
  obtain ⟨hv, hcnt, hl, hnm, hpm, _⟩ := addIter_invariant a n c hc h1 h2 h3 N
  obtain ⟨vn, hvn⟩ := Option.isSome_iff_exists.mp hnm
  obtain ⟨vp, hvp⟩ := Option.isSome_iff_exists.mp hpm
  have heval := get_performance_summary_eval (addIter a n c N) .nil vn
    (.vstr "1.0.0") (.vint (N : Int)) vp 0 hl rfl hvn hv hcnt hvp
  refine ⟨fun m => (addIter_invariant a n c hc h1 h2 h3 m).2.2.2.2.2, ?_, ?_⟩
  · rw [heval]
    rfl
  · rw [heval]
    rfl

/-- Witness for C4: the second admission of the capability skill also
returns True. -/
theorem c4_reported_version_constant_witness :
    (add_method (addIter "ai" "skill" (defCode "skill") 1) "skill"
      (defCode "skill")).2 = true :=
  (c4_reported_version_constant "ai" "skill" (defCode "skill") 1
    (fun s b => ⟨0, _, rfl, by decide⟩) (by decide) (by decide) (by decide)).1 1

/-- C4 counterexample: two consecutive successful admissions of the
capability skill2, yet the version reported by the summary is the string
1.0.0, which is not the number 2 the claim demands. -/
theorem c4_counterexample :
    (add_method (addIter "ai" "skill2" (defCode "skill2") 0) "skill2"
      (defCode "skill2")).2 = true ∧
    (add_method (addIter "ai" "skill2" (defCode "skill2") 1) "skill2"
      (defCode "skill2")).2 = true ∧
    Except.map Summary.version
        ((get_performance_summary (addIter "ai" "skill2" (defCode "skill2") 2)).2) =
      Except.ok (.vstr "1.0.0") ∧
    PyVal.vstr "1.0.0" ≠ PyVal.vint 2 := by
  exact ⟨by decide, by decide, rfl, by decide⟩

theorem modify_method_cases (s : AIState) (n now : String) (c : Code) (k : Int)
    (l : PyList)
    (hpure : StatePreserving c)
    (hcount : lookupAttr s.attrs "modifications_count" = some (.vint k))
    (hl : lookupAttr s.attrs "learning_history" = some (.vlist l))
    (hn2 : n ≠ "modifications_count") (hn3 : n ≠ "learning_history") :
    modify_method s n c now = (s, false) ∨
    ∃ d, modify_method s n c now =
      ((⟨setAttrList (setAttrList (setAttrList s.attrs n (.vmethod d))
          "modifications_count" (.vint (k + 1))) "learning_history"
          (.vlist (l.push (modifyEntry n now)))⟩ : AIState), true) := by
  cases hhas : hasattr s n with
  | false => exact Or.inl (modify_method_hasattr_false s n now c hhas)
  | true =>
    rcases add_method_cases s n c k hpure hcount hn2 with h | ⟨d, h⟩
    · left
      simp [modify_method, hhas, h]
    · right
      refine ⟨d, ?_⟩
      have hl1 : lookupAttr (setAttrList (setAttrList s.attrs n (.vmethod d))
          "modifications_count" (.vint (k + 1))) "learning_history" =
          some (.vlist l) := by
        rw [add_ok_lookup_other s n "learning_history" d k
          (fun hh => hn3 hh.symm) (by decide)]
        exact hl
      simp [modify_method, hhas, h, hl1]

/-- Attribute names whose overwrite by an admitted definition corrupts the
bookkeeping of the registry; the reachability relation below keeps
capability names away from them. -/
def reservedNames : List String :=
  ["version", "modifications_count", "learning_history"]

/-- States reachable from a fresh instance through the public operations,
indexed by the number of successful admissions performed so far (a
successful modify_method contains exactly one successful admission, its
inner add_method).  Admitted definition texts are required not to mutate
the instance themselves, and capability names stay off the bookkeeping
attributes; without these restrictions no invariant survives, because the
executed text can rewrite any attribute. -/
inductive Reach : AIState → Nat → Prop where
  | start (a : String) : Reach (initState a) 0
  | addOk (s : AIState) (k : Nat) (s' : AIState) (n : String) (c : Code) :
      Reach s k → StatePreserving c → n ∉ reservedNames →
      add_method s n c = (s', true) → Reach s' (k + 1)
  | addFail (s : AIState) (k : Nat) (s' : AIState) (n : String) (c : Code) :
      Reach s k → StatePreserving c → n ∉ reservedNames →
      add_method s n c = (s', false) → Reach s' k
  | modifyOk (s : AIState) (k : Nat) (s' : AIState) (n : String) (c : Code)
      (now : String) :
      Reach s k → StatePreserving c → n ∉ reservedNames →
      modify_method s n c now = (s', true) → Reach s' (k + 1)
  | modifyFail (s : AIState) (k : Nat) (s' : AIState) (n : String) (c : Code)
      (now : String) :
      Reach s k → StatePreserving c → n ∉ reservedNames →
      modify_method s n c now = (s', false) → Reach s' k
  | feedbackStep (s : AIState) (k : Nat) (s' : AIState) (fb : String) (b : Bool)
      (now : String) (r : Except String Unit) :
      Reach s k → learn_from_feedback s fb b now = (s', r) → Reach s' k
  | executeStep (s : AIState) (k : Nat) (s' : AIState) (c : Code)
      (ctx : Option (List (String × PyVal))) (r : Except String PyVal) :
      Reach s k → StatePreserving c → execute_code s c ctx = (s', r) →
      Reach s' k

theorem AIState_attrs (L : List (String × PyVal)) : (⟨L⟩ : AIState).attrs = L := rfl

/-- C5 (amended): the code keeps no per-capability version, so nothing is
strictly increasing: over every reachable state the version attribute is
the constant string 1.0.0, while the modification counter equals the total
number of successful admissions across all capability names (not 1 + that
number), and the learning-history ledger always holds a list. -/
theorem c5_version_invariant (s : AIState) (k : Nat) (h : Reach s k) :
    lookupAttr s.attrs "version" = some (.vstr "1.0.0") ∧
    lookupAttr s.attrs "modifications_count" = some (.vint (k : Int)) ∧
    ∃ l, lookupAttr s.attrs "learning_history" = some (.vlist l) := by
  induction h with
  | start a => exact ⟨rfl, rfl, .nil, rfl⟩
  | addOk s k s' n c hr hp hres hstep ih =>
    obtain ⟨hv, hcnt, l, hl⟩ := ih
    simp only [reservedNames, List.mem_cons, List.not_mem_nil, or_false,
      not_or] at hres
    obtain ⟨hn1, hn2, hn3⟩ := hres
    rcases add_method_cases s n c _ hp hcnt hn2 with hcase | ⟨d, hcase⟩
    · rw [hcase] at hstep
      simp at hstep
    · rw [hcase] at hstep
      injection hstep with h1 h2
      cases h1
      have hcast : ((k : Int) + 1) = ((k + 1 : Nat) : Int) := by push_cast; ring
      refine ⟨?_, ?_, ?_⟩
      · rw [AIState_attrs, add_ok_lookup_other s n "version" d _
          (fun hh => hn1 hh.symm) (by decide)]
        exact hv
      · rw [AIState_attrs, lookupAttr_set_self, hcast]
      · refine ⟨l, ?_⟩
        rw [AIState_attrs, add_ok_lookup_other s n "learning_history" d _
          (fun hh => hn3 hh.symm) (by decide)]
        exact hl
  | addFail s k s' n c hr hp hres hstep ih =>
    obtain ⟨hv, hcnt, l, hl⟩ := ih
    simp only [reservedNames, List.mem_cons, List.not_mem_nil, or_false,
      not_or] at hres
    obtain ⟨hn1, hn2, hn3⟩ := hres
    rcases add_method_cases s n c _ hp hcnt hn2 with hcase | ⟨d, hcase⟩
    · rw [hcase] at hstep
      injection hstep with h1 h2
      cases h1
      exact ⟨hv, hcnt, l, hl⟩
    · rw [hcase] at hstep
      simp at hstep
  | modifyOk s k s' n c now hr hp hres hstep ih =>
    obtain ⟨hv, hcnt, l, hl⟩ := ih
    simp only [reservedNames, List.mem_cons, List.not_mem_nil, or_false,
      not_or] at hres
    obtain ⟨hn1, hn2, hn3⟩ := hres
    rcases modify_method_cases s n now c _ l hp hcnt hl hn2 hn3 with
      hcase | ⟨d, hcase⟩
    · rw [hcase] at hstep
      simp at hstep
    · rw [hcase] at hstep
      injection hstep with h1 h2
      cases h1
      have hcast : ((k : Int) + 1) = ((k + 1 : Nat) : Int) := by push_cast; ring
      refine ⟨?_, ?_, ?_⟩
      · rw [AIState_attrs,
          lookupAttr_set_ne _ _ _ _ (by decide : ("version" : String) ≠ "learning_history"),
          add_ok_lookup_other s n "version" d _ (fun hh => hn1 hh.symm) (by decide)]
        exact hv
      · rw [AIState_attrs,
          lookupAttr_set_ne _ _ _ _
            (by decide : ("modifications_count" : String) ≠ "learning_history"),
          lookupAttr_set_self, hcast]
      · refine ⟨l.push (modifyEntry n now), ?_⟩
        rw [AIState_attrs, lookupAttr_set_self]
  | modifyFail s k s' n c now hr hp hres hstep ih =>
    obtain ⟨hv, hcnt, l, hl⟩ := ih
    simp only [reservedNames, List.mem_cons, List.not_mem_nil, or_false,
      not_or] at hres
    obtain ⟨hn1, hn2, hn3⟩ := hres
    rcases modify_method_cases s n now c _ l hp hcnt hl hn2 hn3 with
      hcase | ⟨d, hcase⟩
    · rw [hcase] at hstep
      injection hstep with h1 h2
      cases h1
      exact ⟨hv, hcnt, l, hl⟩
    · rw [hcase] at hstep
      simp at hstep
  | feedbackStep s k s' fb b now r hr hstep ih =>
    obtain ⟨hv, hcnt, l, hl⟩ := ih
    simp only [learn_from_feedback, hl] at hstep
    injection hstep with h1 h2
    cases h1
    refine ⟨?_, ?_, ?_⟩
    · rw [AIState_attrs,
        lookupAttr_set_ne _ _ _ _ (by decide : ("version" : String) ≠ "learning_history")]
      exact hv
    · rw [AIState_attrs,
        lookupAttr_set_ne _ _ _ _
          (by decide : ("modifications_count" : String) ≠ "learning_history")]
      exact hcnt
    · refine ⟨l.push (feedbackEntry fb b now), ?_⟩
      rw [AIState_attrs, lookupAttr_set_self]
  | executeStep s k s' c ctx r hr hp hstep ih =>
    have hfst : (execute_code s c ctx).1 = s := by
      unfold execute_code
      rcases hrr : c.run s (ctxFun ctx) with ⟨s1, rr⟩
      have hs1 := hp s (ctxFun ctx)
      rw [hrr] at hs1
      cases rr <;> simpa using hs1
    have hs : s' = s := by
      rw [← hfst, hstep]
    rw [hs]
    exact ih

/-- Witness for C5: the fresh registry is reachable with zero successful
admissions, and there its version attribute is the constant string. -/
theorem c5_version_invariant_witness :
    lookupAttr (initState "ai").attrs "version" = some (.vstr "1.0.0") :=
  (c5_version_invariant (initState "ai") 0 (Reach.start "ai")).1

/-- C5 counterexample: after one successful admission of the capability
plan the stored version attribute is still the string 1.0.0; it is neither
the number 2 (1 + one successful admission) nor any strictly increased
numeric version — in particular it is not even the number 1. -/
theorem c5_counterexample :
    (add_method (initState "ai") "plan" (defCode "plan")).2 = true ∧
    lookupAttr ((add_method (initState "ai") "plan" (defCode "plan")).1).attrs
        "version" = some (.vstr "1.0.0") ∧
    PyVal.vstr "1.0.0" ≠ PyVal.vint 2 ∧ PyVal.vstr "1.0.0" ≠ PyVal.vint 1 := by
  exact ⟨by decide, by decide, by decide, by decide⟩

theorem PyList.toList_ofList (l : List PyVal) : (PyList.ofList l).toList = l := by
  induction l with
  | nil => rfl
  | cons x xs ih => simp [PyList.ofList, PyList.toList, ih]

/-- Truthiness of the success field (defaulting to False) of a history
entry that is a dict; the count below mirrors the generator sum of the
source on well-formed entries. -/
def dictSuccessTruthy (v : PyVal) : Bool :=
  match v with
  | .vdict dct => pyTruthy ((dct.lookup "success").getD (.vbool false))
  | _ => false

def specSuccessCount (l : List PyVal) : Nat := l.countP dictSuccessTruthy

theorem countSuccessful_eq (l : List PyVal)
    (h : ∀ v ∈ l, ∃ dct, v = PyVal.vdict dct) :
    countSuccessful l = Except.ok (specSuccessCount l) := by
  induction l with
  | nil => rfl
  | cons x xs ih =>
    obtain ⟨dct, hx⟩ := h x (List.mem_cons_self x xs)
    subst hx
    have ihh := ih (fun v hv => h v (List.mem_cons_of_mem _ hv))
    simp only [countSuccessful, pyGet, Bind.bind, Except.bind, ihh,
      specSuccessCount, List.countP_cons, dictSuccessTruthy]
    by_cases ht : pyTruthy ((dct.lookup "success").getD (.vbool false)) <;>
      simp [ht, Nat.add_comm, Pure.pure, Except.pure]

/-- Follows the spec words, for comparison with the source: a feedback
entry is a history entry carrying a feedback note, and the spec rate
divides the successes by the number of feedback entries only. -/
def specFeedbackCount (l : List PyVal) : Nat :=
  l.countP fun v =>
    match v with
    | .vdict dct => (dct.lookup "feedback").isSome
    | _ => false

/-- Follows the spec words, for comparison with the source: successes
divided by total feedback entries, zero when there are none. -/
def specClaimedRate (l : List PyVal) : ℚ :=
  if specFeedbackCount l = 0 then 0
  else (specSuccessCount l : ℚ) / (specFeedbackCount l : ℚ)

/-- C6 (amended): the success rate the code reports divides the number of
history entries whose success field is truthy by the number of all
learning-history entries — feedback and modification records alike, not
feedback entries only — and is exactly 0, never a division fault, when the
history is empty. -/
theorem c6_success_rate (s : AIState) (l : List PyVal) (vn vv vm vp : PyVal)
    (hl : lookupAttr s.attrs "learning_history" =
      some (.vlist (PyList.ofList l)))
    (hdicts : ∀ v ∈ l, ∃ dct, v = PyVal.vdict dct)
    (hn : lookupAttr s.attrs "name" = some vn)
    (hv : lookupAttr s.attrs "version" = some vv)
    (hm : lookupAttr s.attrs "modifications_count" = some vm)
    (hp : lookupAttr s.attrs "performance_metrics" = some vp) :
    Except.map Summary.success_rate ((get_performance_summary s).2) =
      Except.ok (if l.length = 0 then 0
        else (specSuccessCount l : ℚ) / (l.length : ℚ)) ∧
    (l = [] →
      Except.map Summary.success_rate ((get_performance_summary s).2) =
        Except.ok 0) := by
  have hcnt : countSuccessful (PyList.ofList l).toList =
      Except.ok (specSuccessCount l) := by
    rw [PyList.toList_ofList]
    exact countSuccessful_eq l hdicts
  have heval := get_performance_summary_eval s (PyList.ofList l) vn vv vm vp
    (specSuccessCount l) hl hcnt hn hv hm hp
  rw [heval]
  constructor
  · simp only [Except.map, PyList.toList_ofList]
    by_cases h0 : l.length = 0
    · simp [h0]
    · simp [h0, Nat.pos_of_ne_zero h0]
  · intro hnil
    subst hnil
    simp [Except.map, PyList.toList_ofList]

/-- Witness for C6: on the fresh registry there are zero history entries
and the reported success rate is exactly 0. -/
theorem c6_success_rate_witness :
    Except.map Summary.success_rate
        ((get_performance_summary (initState "ai")).2) = Except.ok 0 :=
  (c6_success_rate (initState "ai") [] (.vstr "ai") (.vstr "1.0.0") (.vint 0)
    (.vdict .dnil) rfl (by simp) rfl rfl rfl rfl).2 rfl

/-- The registry state after one successful modify of the attribute name
followed by one successful feedback record: its history holds one modify
entry and one feedback entry. -/
def c6state : AIState :=
  (learn_from_feedback
    ((modify_method (initState "ai") "name" (defCode "name") "t0").1)
    "ok" true "t1").1

/-- The history list of c6state. -/
def c6hist : List PyVal := [modifyEntry "name" "t0", feedbackEntry "ok" true "t1"]

/-- C6 counterexample: in c6state there is exactly one feedback entry, and
it is successful, so the claimed rate (successes over feedback entries) is
1; but the code divides by all history entries, modification records
included, and reports 1/2. -/
theorem c6_counterexample :
    lookupAttr c6state.attrs "learning_history" =
      some (.vlist (PyList.ofList c6hist)) ∧
    Except.map Summary.success_rate ((get_performance_summary c6state).2) =
      Except.ok (1 / 2) ∧
    specClaimedRate c6hist = 1 ∧ (1 / 2 : ℚ) ≠ 1 := by
  have h1 : specFeedbackCount c6hist = 1 := by decide
  have h2 : specSuccessCount c6hist = 1 := by decide
  refine ⟨by decide, rfl, ?_, by norm_num⟩
  rw [specClaimedRate, h1, h2]
  norm_num

/-- C7 (spec-modelled): rollback on a capability that is at version 1,
with no prior implementation in its history, fails with NoHistory and
returns the registry — capability table, versions, histories, and ledger —
entirely unchanged. -/
theorem c7_rollback_no_history (r : SpecRegistry) (name : String)
    (cap : SpecCapability)
    (hfound : lookupCap r.caps name = some cap)
    (_hver : cap.version = 1)
    (hhist : cap.history = []) :
    rollbackSpec r name = (r, Except.error RollbackError.NoHistory) := by
  simp [rollbackSpec, hfound, hhist]

/-- Witness for C7: a registry holding one capability at version 1 with
empty history; rollback fails with NoHistory and changes nothing. -/
theorem c7_rollback_no_history_witness :
    rollbackSpec (⟨[("greet", ⟨7, 1, []⟩)], []⟩ : SpecRegistry) "greet" =
      ((⟨[("greet", ⟨7, 1, []⟩)], []⟩ : SpecRegistry),
        Except.error RollbackError.NoHistory) :=
  c7_rollback_no_history (⟨[("greet", ⟨7, 1, []⟩)], []⟩ : SpecRegistry) "greet"
    (⟨7, 1, []⟩ : SpecCapability) rfl rfl rfl

/-- C8 (amended): every fault raised by the executed text is caught at the
execute_code boundary: the call always returns normally (never an escaped
exception), and when the text faulted the value handed to the caller is
the ordinary value None — not a distinguishable typed fault value. -/
theorem c8_no_uncaught_fault (s : AIState) (c : Code)
    (context : Option (List (String × PyVal))) :
    (∃ v, (execute_code s c context).2 = Except.ok v) ∧
    (∀ s1 e, c.run s (ctxFun context) = (s1, Except.error e) →
      execute_code s c context = (s1, Except.ok PyVal.vnone)) := by
  constructor
  · unfold execute_code
    rcases hrr : c.run s (ctxFun context) with ⟨s1, rr⟩
    cases rr with
    | error e => exact ⟨.vnone, rfl⟩
    | ok ns => exact ⟨(ns "result").getD .vnone, rfl⟩
  · intro s1 e hrun
    unfold execute_code
    rw [hrun]

/-- Witness for C8: a text that mutates the instance and then raises is
caught; execute_code returns None with the partial mutation retained. -/
theorem c8_no_uncaught_fault_witness :
    execute_code (initState "ai") mutThenRaiseCode none =
      ((⟨setAttrList (initState "ai").attrs "flag" (.vint 1)⟩ : AIState),
        Except.ok PyVal.vnone) :=
  (c8_no_uncaught_fault (initState "ai") mutThenRaiseCode none).2
    (⟨setAttrList (initState "ai").attrs "flag" (.vint 1)⟩ : AIState)
    "TypeError: bad" rfl

/-- C8 counterexample: the caught fault is converted into the ordinary
value None, the same outcome an entirely successful empty run produces, so
it is not a distinguishable typed fault value as the claim states. -/
theorem c8_counterexample :
    (execute_code (initState "ai") zeroDivCode none).2 = Except.ok PyVal.vnone ∧
    (execute_code (initState "ai") emptyRunCode none).2 = Except.ok PyVal.vnone := by
  exact ⟨rfl, rfl⟩

/-- C9: get_performance_summary is read-only — it returns the state it was
given — so two consecutive calls with no intervening mutation of registry,
ledger, or metrics are evaluated on the same state and return equal
results. -/
theorem c9_summary_deterministic (s : AIState) :
    (get_performance_summary s).1 = s ∧
    (get_performance_summary ((get_performance_summary s).1)).2 =
      (get_performance_summary s).2 := by
  exact ⟨rfl, rfl⟩

/-- C10 (amended): the existence check of modify_method is plain hasattr,
so it passes for every existing attribute whether or not it is callable;
when the supplied text binds a callable under that name, the data
attribute is overwritten with the callable and — provided the name is not
learning_history or modifications_count, whose overwrite makes a later
bookkeeping step fault — the call returns True.  (For the name
learning_history itself the overwrite still happens but the history append
then faults and the call returns False; see the counterexample.) -/
theorem c10_modify_overwrites_data_attr (s : AIState) (n now : String)
    (c : Code) (v : PyVal) (ns : String → Option PyVal) (d : Nat) (k : Int)
    (l : PyList)
    (hattr : lookupAttr s.attrs n = some v)
    (hrun : c.run s (fun _ => none) = (s, Except.ok ns))
    (hns : ns n = some (.vmethod d))
    (hcount : lookupAttr s.attrs "modifications_count" = some (.vint k))
    (hn1 : n ≠ "modifications_count")
    (hl : lookupAttr s.attrs "learning_history" = some (.vlist l))
    (hn2 : n ≠ "learning_history") :
    hasattr s n = true ∧
    (modify_method s n c now).2 = true ∧
    lookupAttr ((modify_method s n c now).1).attrs n = some (.vmethod d) := by
  have hhas : hasattr s n = true := hasattr_of_lookup s n v hattr
  have hmod := modify_method_ok s n now c d ns k l hrun hns hcount hn1 hl hn2 hhas
  refine ⟨hhas, ?_, ?_⟩
  · rw [hmod]
  · rw [hmod, AIState_attrs,
      lookupAttr_set_ne _ _ _ _ (fun hh => hn2 hh),
      lookupAttr_set_ne _ _ _ _ (fun hh => hn1 hh),
      lookupAttr_set_self]

/-- Witness for C10: modifying the plain data attribute version passes the
existence check, returns True, and overwrites the version string with the
callable. -/
theorem c10_modify_overwrites_data_attr_witness :
    lookupAttr ((modify_method (initState "ai") "version" (defCode "version")
      "t1").1).attrs "version" = some (.vmethod 0) :=
  (c10_modify_overwrites_data_attr (initState "ai") "version" "t1"
    (defCode "version") (.vstr "1.0.0") _ 0 0 .nil rfl rfl (by decide) rfl
    (by decide) rfl (by decide)).2.2

/-- C10 counterexample: for the data attribute learning_history the
existence check passes and the callable overwrites the attribute, but
modify_method returns False, not True as the claim states: the history
append that follows faults on the freshly overwritten attribute. -/
theorem c10_counterexample :
    hasattr (initState "ai") "learning_history" = true ∧
    (modify_method (initState "ai") "learning_history"
      (defCode "learning_history") "t0").2 = false ∧
    lookupAttr ((modify_method (initState "ai") "learning_history"
      (defCode "learning_history") "t0").1).attrs "learning_history" =
      some (.vmethod 0) := by
  exact ⟨by decide, by decide, by decide⟩

end Claims

end AMAI
